import Mathlib

/-!  Verification development for the hybrid retrieval memory
(`LongTermMemory`, file `src/memory/long_term_memory.py`) of the alba
repository: a shallow embedding of its ingestion and query paths, and
theorems about the behaviour of that embedding. -/

namespace Alba

/-- A named entity as tagged by the NER extractor and as persisted inside
a chunk record's `entities` JSON field: a `{"type": ..., "value": ...}`
dict. -/
structure Entity where
  type : String
  value : String
deriving DecidableEq

/-- A parent document as stored in the `docs` collection.  Only the
metadata keys used by context assembly (`number`, `page`) are modelled
besides `id` and `text`. -/
structure Document where
  id : String
  text : String
  number : Int
  page : Int
deriving DecidableEq

/-- A chunk as handed to `_generate_chunk_records` by the document
engine's chunker: its `id`, its `text`, and the `parent_id` entry of its
metadata dict (`none` models a missing key, for which the code falls
back to the default `0`). -/
structure Chunk where
  id : String
  text : String
  parentMeta : Option String
deriving DecidableEq

/-- Embedding vectors.  Their numeric contents never matter to the
claims, only which vector ends up in which record field, so vectors are
abstracted as integer lists. -/
abbrev Vec := List Int

/-- A record built for the `chunks` collection by
`_generate_chunk_records`.  `parent_id = none` models the Python default
`0` used when the chunk metadata has no `parent_id` key. -/
structure ChunkRecord where
  id : String
  dense_vector : Vec
  sparse_vector : Vec
  parent_id : Option String
  text : String
  entities : List Entity
deriving DecidableEq

/-- Embedding of Python `s.split("_")[0]` (line 418): the prefix of `s`
up to, and excluding, the first underscore — all of `s` when it contains
none. -/
def pyStrSplitFirst (s : String) : String :=
  String.mk (s.data.takeWhile fun c => c != '_')

/-- The synthetic `LAW` self-reference injection of
`_generate_chunk_records` (lines 420-429): append the entity
`{"type": "LAW", "value": parent_document_id}` unless an equal entity is
already present in the list. -/
def injectLaw (parent_document_id : String) (entities_list : List Entity) : List Entity :=
  let law_entity_exists := entities_list.any fun ent =>
    ent.type == "LAW" && ent.value == parent_document_id
  if law_entity_exists then entities_list
  else entities_list ++ [{ type := "LAW", value := parent_document_id }]

/-- Entity list of one chunk record: tag the chunk text with the NER
extractor (each tag is a `(type, value)` pair, line 416), then inject the
synthetic `LAW` entity for the parent document id recovered from the
chunk id. -/
def mkEntitiesList (ner : String → List (String × String)) (chunk : Chunk) : List Entity :=
  let entities_list := (ner chunk.text).map fun ent => Entity.mk ent.1 ent.2
  injectLaw (pyStrSplitFirst chunk.id) entities_list

/-- The record built for `chunk` from the dense embedding `d` and sparse
embedding `s` at its index (body of the `for i, chunk in enumerate`
loop, lines 431-438). -/
def mkRecord (ner : String → List (String × String)) (chunkSize : Nat) (chunk : Chunk) (d s : Vec) : ChunkRecord :=
  { id := chunk.id,
    dense_vector := d,
    sparse_vector := s,
    parent_id := chunk.parentMeta,
    text := chunk.text.take chunkSize,
    entities := mkEntitiesList ner chunk }

/-- The record loop of `_generate_chunk_records`: for the chunk at
overall index `i`, look up `dense_embeddings[i]` and
`sparse_embeddings[i]`; an out-of-range index is Python's `IndexError`,
modelled as `.error`, and aborts the whole function with no records. -/
def buildRecords (ner : String → List (String × String)) (chunkSize : Nat) (dense_embeddings sparse_embeddings : List Vec) : List Chunk → Nat → Except String (List ChunkRecord)
  | [], _ => .ok []
  | chunk :: rest, i =>
    match dense_embeddings[i]?, sparse_embeddings[i]? with
    | some d, some s =>
      match buildRecords ner chunkSize dense_embeddings sparse_embeddings rest (i + 1) with
      | .ok recs => .ok (mkRecord ner chunkSize chunk d s :: recs)
      | .error e => .error e
    | _, _ => .error "IndexError"

/-- One call to an embedding provider, recorded for call counting. -/
inductive EfCall where
  | dense (texts : List String)
  | sparse (texts : List String)
deriving DecidableEq

/-- Embedding of `_generate_chunk_records` (lines 390-441): batch all
chunk texts, call the dense provider once and the sparse provider once
on the whole batch, then build one record per chunk.  Besides the result
it returns the in-order trace of provider calls; a provider failure
propagates (the second component still records the calls made before the
failure). -/
def generate_chunk_records (denseEf sparseEf : List String → Except String (List Vec)) (ner : String → List (String × String)) (chunkSize : Nat) (chunks : List Chunk) : Except String (List ChunkRecord) × List EfCall :=
  let chunk_texts := chunks.map fun chunk => chunk.text
  match denseEf chunk_texts with
  | .error e => (.error e, [EfCall.dense chunk_texts])
  | .ok dense_embeddings =>
    match sparseEf chunk_texts with
    | .error e => (.error e, [EfCall.dense chunk_texts, EfCall.sparse chunk_texts])
    | .ok sparse_embeddings =>
      (buildRecords ner chunkSize dense_embeddings sparse_embeddings chunks 0,
       [EfCall.dense chunk_texts, EfCall.sparse chunk_texts])

/-- Modelled from the spec: `DocumentEngine._chunk_documents` is not among
the sources under verification (only its caller is).  Spec section 3 and
section 4.1: every produced chunk's id is derived as
`{parent_document_id}_{sequence}` and its metadata back-references its
parent, so the parent id is recoverable as the substring before the
first underscore.  `pieces` are the passages the (tunable) boundary
policy cut the document's text into. -/
def chunk_documents (doc : Document) (pieces : List String) : List Chunk :=
  pieces.enum.map fun p =>
    { id := doc.id ++ "_" ++ toString p.1, text := p.2, parentMeta := some doc.id }

/-- The slice `documents[start_idx:end_idx]` used by
`_process_and_insert_chunks` for batch number `i` (lines 330-334). -/
def batchSlice (documents : List α) (batch_size start_from i : Nat) : List α :=
  let start_idx := start_from + i * batch_size
  let end_idx := min (start_from + (i + 1) * batch_size) documents.length
  (documents.drop start_idx).take (end_idx - start_idx)

/-- Batch loop of `_process_and_insert_chunks` (lines 326-347).
`processBatch` models `_process_and_insert_chunk_batch` (chunk, embed,
insert): `none` is success, `some e` an exception, in which case the
loop logs `start_idx + batch_size` as the next resume offset and
re-raises, modelled as `.error (next_start_from, e)`.  On success the
inserted batches are returned in order. -/
def processLoop (processBatch : List α → Option String) (documents : List α) (batch_size start_from : Nat) : Nat → Nat → List (List α) → Except (Nat × String) (List (List α))
  | 0, _, inserted => .ok inserted
  | n + 1, i, inserted =>
    let start_idx := start_from + i * batch_size
    let batch_documents := batchSlice documents batch_size start_from i
    match processBatch batch_documents with
    | some e => .error (start_idx + batch_size, e)
    | none =>
      processLoop processBatch documents batch_size start_from n (i + 1)
        (inserted ++ [batch_documents])

/-- Embedding of `_process_and_insert_chunks(documents, batch_size,
start_from)` (lines 306-349): compute the number of batches over
`documents[start_from:]` and run the batch loop. -/
def process_and_insert_chunks (processBatch : List α → Option String) (documents : List α) (batch_size : Nat) (start_from : Nat) : Except (Nat × String) (List (List α)) :=
  let adjusted_docs := documents.drop start_from
  let num_batches := adjusted_docs.length / batch_size +
    (if adjusted_docs.length % batch_size > 0 then 1 else 0)
  processLoop processBatch documents batch_size start_from num_batches 0 []

/-- Embedding of `MilvusClient.drop_collection` on an abstract store
modelled as its list of collection names. -/
def drop_collection (store : List String) (name : String) : List String :=
  store.filter fun c => c != name

/-- Embedding of `delete_documents(collection)` (lines 283-293): on
`"all"`, iterate over the snapshot returned by `list_collections()` and
drop each collection; otherwise drop exactly the named collection.
Returns the store's resulting collection list. -/
def delete_documents (store : List String) (collection : String) : List String :=
  if collection == "all" then
    store.foldl (fun s collection_name => drop_collection s collection_name) store
  else
    drop_collection store collection

/-- A search hit as consumed by the query path: the requested
`output_fields` are `parent_id` and, on the filtered pass, `entities`.
Hits appear in fused-score order inside a hit list. -/
structure Hit where
  parent_id : String
  entities : List Entity
deriving DecidableEq

/-- The store behaviour visible to one `get_context` call: the hit list
an entity-filtered hybrid search for this query would return, the hit
list an unfiltered hybrid search would return (either may raise, for
example after the collections were dropped), and the `docs`
point-lookup (`client.get`), which yields `none` on a miss.  A hybrid
search issued with a single query embedding returns a `SearchResult`
holding exactly one hit list (one per query vector), which is why each
search outcome is a single hit list that the query path wraps into a
one-element list on use. -/
structure StoreQ where
  hybridFiltered : Except String (List Hit)
  hybridUnfiltered : Except String (List Hit)
  getById : String → Option Document

/-- Embedding of Python `value.replace('"', '\\"')` (line 536): the
pattern is the single character `"`, so the replacement rewrites the
value character by character. -/
def escapeQuotesAux : List Char → List Char
  | [] => []
  | c :: cs => if c = '"' then '\\' :: '"' :: escapeQuotesAux cs else c :: escapeQuotesAux cs

/-- Escaping applied to each query entity value before building the JSON
filter; the escaped list is also the one the client-side re-check uses. -/
def escapeQuotes (v : String) : String :=
  String.mk (escapeQuotesAux v.data)

/-- The query's entity dict list (`_find_relevant_chunks` lines
535-538). -/
def queryEntityList (extracted_entities : List (String × String)) : List Entity :=
  extracted_entities.map fun ent => Entity.mk ent.1 (escapeQuotes ent.2)

/-- The client-side membership re-check for one hit (line 564):
Python `any(ent in entities for ent in entity_list)`. -/
def hitMatches (entity_list : List Entity) (hit : Hit) : Bool :=
  entity_list.any fun ent => hit.entities.contains ent

/-- Embedding of `_find_relevant_chunks` (lines 490-582).  With query
entities extracted, the entity-filtered hybrid search runs first and its
hits are re-checked client-side; `response[0]` is replaced by the
surviving hits only when at least one survives (`if hits:`).  The
fallback unfiltered search runs when no entities were extracted or
`len(response)` is zero — `len(response)` being the number of per-query
hit lists of the `SearchResult` (here always one), not the number of
hits.  The function returns `response[0]`. -/
def find_relevant_chunks (ner : String → List (String × String)) (store : StoreQ) (query : String) : Except String (List Hit) :=
  let extracted_entities := ner query
  if extracted_entities.isEmpty then
    match store.hybridUnfiltered with
    | .error e => .error e
    | .ok hitsU => .ok ([hitsU].headD [])
  else
    match store.hybridFiltered with
    | .error e => .error e
    | .ok hitsF =>
      let entity_list := queryEntityList extracted_entities
      let hits := hitsF.filter fun hit => hitMatches entity_list hit
      let response := if hits.isEmpty then [hitsF] else [hits]
      if response.length = 0 then
        match store.hybridUnfiltered with
        | .error e => .error e
        | .ok hitsU => .ok ([hitsU].headD [])
      else
        .ok (response.headD [])

/-- Loop of `_retrieve_parent_documents` (lines 588-594): walk the hit
list, append each unseen `parent_id`, and break as soon as the collected
list's length equals `n_docs`. -/
def uniqueParentsLoop (n_docs : Nat) : List Hit → List String → List String
  | [], unique_parent_ids => unique_parent_ids
  | hit :: rest, unique_parent_ids =>
    if hit.parent_id ∈ unique_parent_ids then
      uniqueParentsLoop n_docs rest unique_parent_ids
    else
      let appended := unique_parent_ids ++ [hit.parent_id]
      if appended.length = n_docs then appended
      else uniqueParentsLoop n_docs rest appended

/-- The distinct parent ids `_retrieve_parent_documents` collects. -/
def retrieveParentIds (response : List Hit) (n_docs : Nat) : List String :=
  uniqueParentsLoop n_docs response []

/-- Embedding of `_get_document_by_id` (lines 621-661): point lookup in
the `docs` collection, `none` on a miss (all store exceptions are caught
there and also yield `none`). -/
def get_document_by_id (store : StoreQ) (data_id : String) : Option Document :=
  store.getById data_id

/-- Embedding of `_retrieve_parent_documents` (lines 584-600): look each
collected parent id up in the `docs` collection; misses stay in the
resulting list as `none`. -/
def retrieve_parent_documents (store : StoreQ) (response : List Hit) (n_docs : Nat) : List (Option Document) :=
  (retrieveParentIds response n_docs).map fun parent_id => get_document_by_id store parent_id

/-- Loop of `_create_context` (lines 602-619): one header-plus-text
block per document and one source bullet per document.  A `none` in the
list reaches Python `doc.metadata['number']` with `doc` being `None`,
which raises `AttributeError`; that exception is modelled as `.error`. -/
def createContextLoop : List (Option Document) → String → List String → Except String (String × String)
  | [], context, sources_list =>
    .ok (context, "Fuentes consultadas:\n" ++ String.intercalate "\n" sources_list)
  | none :: _, _, _ => .error "AttributeError"
  | some doc :: rest, context, sources_list =>
    let header := "###DECRETO " ++ toString doc.number ++ "###\n"
    createContextLoop rest (context ++ header ++ doc.text ++ "\n\n")
      (sources_list ++ ["- Decreto " ++ toString doc.number ++ " (página " ++ toString doc.page ++ ")"])

/-- Embedding of `_create_context`. -/
def create_context (documents : List (Option Document)) : Except String (String × String) :=
  createContextLoop documents "" []

/-- Embedding of `get_context(query, n_docs)` (lines 474-488): find
relevant chunks (the candidate limit 1000 is part of the store request
and immaterial here), deduplicate to parent documents, and assemble the
context and sources strings.  The method installs no exception handler,
so a store error surfaces as `.error`. -/
def get_context (ner : String → List (String × String)) (store : StoreQ) (query : String) (n_docs : Nat) : Except String (String × String) :=
  match find_relevant_chunks ner store query with
  | .error e => .error e
  | .ok results => create_context (retrieve_parent_documents store results n_docs)

/-- Whether a query outcome is a normal return rather than a raised
exception. -/
def isOkResult (r : Except String (String × String)) : Bool :=
  match r with
  | .ok _ => true
  | .error _ => false

/-- Spec-side description (section 4.5 step 6), written from the spec's
words for the refinement proof of the deduplication stage: collect the
distinct ids of a list in order of first appearance; `seen` holds the
ids already collected. -/
def firstOccAux : List String → List String → List String
  | [], _ => []
  | x :: xs, seen =>
    if x ∈ seen then firstOccAux xs seen else x :: firstOccAux xs (seen ++ [x])

/-- Spec-side: the distinct ids of a list in order of first
appearance. -/
def specDistinctFirstOcc (ids : List String) : List String :=
  firstOccAux ids []

/-! Helper lemmas about the embedded operations. -/

theorem generate_chunk_records_ok_elim (denseEf sparseEf : List String → Except String (List Vec)) (ner : String → List (String × String)) (chunkSize : Nat) (chunks : List Chunk) (records : List ChunkRecord) (trace : List EfCall) (h : generate_chunk_records denseEf sparseEf ner chunkSize chunks = (Except.ok records, trace)) : ∃ dv sv, denseEf (chunks.map fun c => c.text) = .ok dv ∧ sparseEf (chunks.map fun c => c.text) = .ok sv ∧ buildRecords ner chunkSize dv sv chunks 0 = .ok records ∧ trace = [EfCall.dense (chunks.map fun c => c.text), EfCall.sparse (chunks.map fun c => c.text)] := by
  simp only [generate_chunk_records] at h
  cases hd : denseEf (chunks.map fun c => c.text) with
  | error e => rw [hd] at h; simp at h
  | ok dv =>
    rw [hd] at h
    cases hs : sparseEf (chunks.map fun c => c.text) with
    | error e => rw [hs] at h; simp at h
    | ok sv =>
      rw [hs] at h
      simp only [Prod.mk.injEq] at h
      exact ⟨dv, sv, rfl, rfl, h.1, h.2.symm⟩

theorem buildRecords_length_get (ner : String → List (String × String)) (chunkSize : Nat) (dv sv : List Vec) : ∀ (cs : List Chunk) (i : Nat) (recs : List ChunkRecord), buildRecords ner chunkSize dv sv cs i = .ok recs → recs.length = cs.length ∧ ∀ j : Nat, ∀ hj : j < recs.length, ∀ hj' : j < cs.length, ∃ d s, dv[i + j]? = some d ∧ sv[i + j]? = some s ∧ recs.get ⟨j, hj⟩ = mkRecord ner chunkSize (cs.get ⟨j, hj'⟩) d s := by
  intro cs
  induction cs with
  | nil =>
    intro i recs h
    simp only [buildRecords] at h
    injection h with h
    subst h
    refine ⟨rfl, ?_⟩
    intro j hj
    simp at hj
  | cons c rest ih =>
    intro i recs h
    simp only [buildRecords] at h
    cases hd : dv[i]? with
    | none => rw [hd] at h; simp at h
    | some d =>
      rw [hd] at h
      cases hs : sv[i]? with
      | none => rw [hs] at h; simp at h
      | some s =>
        rw [hs] at h
        cases hrec : buildRecords ner chunkSize dv sv rest (i + 1) with
        | error e => rw [hrec] at h; simp at h
        | ok recs' =>
          rw [hrec] at h
          simp only [Except.ok.injEq] at h
          subst h
          obtain ⟨hlen, hpt⟩ := ih (i + 1) recs' hrec
          refine ⟨by simp [hlen], ?_⟩
          intro j hj hj'
          cases j with
          | zero =>
            refine ⟨d, s, ?_, ?_, rfl⟩
            · simpa using hd
            · simpa using hs
          | succ j' =>
            have hj2 : j' < recs'.length := by simpa using hj
            have hj2' : j' < rest.length := by simpa using hj'
            obtain ⟨d', s', hd', hs', heq⟩ := hpt j' hj2 hj2'
            have harith : i + (j' + 1) = i + 1 + j' := by omega
            refine ⟨d', s', ?_, ?_, ?_⟩
            · rw [harith]; exact hd'
            · rw [harith]; exact hs'
            · simpa using heq

theorem buildRecords_mem (ner : String → List (String × String)) (chunkSize : Nat) (dv sv : List Vec) (cs : List Chunk) (recs : List ChunkRecord) (h : buildRecords ner chunkSize dv sv cs 0 = .ok recs) (r : ChunkRecord) (hr : r ∈ recs) : ∃ chunk, chunk ∈ cs ∧ ∃ d s, r = mkRecord ner chunkSize chunk d s := by
  obtain ⟨hlen, hpt⟩ := buildRecords_length_get ner chunkSize dv sv cs 0 recs h
  obtain ⟨j, hj, hja⟩ := List.getElem_of_mem hr
  have hj' : j < cs.length := by omega
  obtain ⟨d, s, _, _, heq⟩ := hpt j hj hj'
  have hget : recs.get ⟨j, hj⟩ = r := by simpa using hja
  exact ⟨cs.get ⟨j, hj'⟩, List.get_mem cs j hj', d, s, hget.symm.trans heq⟩

theorem injectLaw_mem (pid : String) (es : List Entity) : Entity.mk "LAW" pid ∈ injectLaw pid es := by
  simp only [injectLaw]
  by_cases hx : (es.any fun ent => ent.type == "LAW" && ent.value == pid) = true
  · rw [if_pos hx]
    obtain ⟨ent, hent, hprop⟩ := List.any_eq_true.mp hx
    obtain ⟨h1, h2⟩ := Bool.and_eq_true _ _ |>.mp hprop
    have hent' : ent = Entity.mk "LAW" pid := by
      cases ent
      simp only [Entity.mk.injEq]
      exact ⟨beq_iff_eq.mp h1, beq_iff_eq.mp h2⟩
    rw [← hent']
    exact hent
  · rw [if_neg hx]
    exact List.mem_append_right _ (List.mem_singleton.mpr rfl)

theorem injectLaw_of_mem (pid : String) (es : List Entity) (h : Entity.mk "LAW" pid ∈ es) : injectLaw pid es = es := by
  have hx : (es.any fun ent => ent.type == "LAW" && ent.value == pid) = true :=
    List.any_eq_true.mpr ⟨Entity.mk "LAW" pid, h, by simp⟩
  simp only [injectLaw]
  rw [if_pos hx]

theorem mkEntitiesList_law (ner : String → List (String × String)) (chunk : Chunk) : Entity.mk "LAW" (pyStrSplitFirst chunk.id) ∈ mkEntitiesList ner chunk := by
  simp only [mkEntitiesList]
  exact injectLaw_mem _ _

theorem takeWhile_append_underscore (a b : List Char) (ha : a.all (fun c => c != '_') = true) : (a ++ '_' :: b).takeWhile (fun c => c != '_') = a := by
  induction a with
  | nil => simp
  | cons c cs ih =>
    rw [List.all_cons] at ha
    obtain ⟨h1, h2⟩ := Bool.and_eq_true _ _ |>.mp ha
    simp [List.takeWhile_cons, h1, ih h2]

theorem pyStrSplitFirst_append (a t : String) (ha : a.data.all (fun c => c != '_') = true) : pyStrSplitFirst (a ++ "_" ++ t) = a := by
  unfold pyStrSplitFirst
  have hu : ("_" : String).data = ['_'] := rfl
  have hdata : (a ++ "_" ++ t).data = a.data ++ '_' :: t.data := by
    rw [String.data_append, String.data_append, hu, List.append_assoc]
    rfl
  rw [hdata, takeWhile_append_underscore a.data t.data ha]

theorem uniqueParentsLoop_eq (k : Nat) : ∀ (hits : List Hit) (acc : List String), acc.length < k → uniqueParentsLoop k hits acc = (acc ++ firstOccAux (hits.map fun h => h.parent_id) acc).take k := by
  intro hits
  induction hits with
  | nil =>
    intro acc hacc
    simp only [uniqueParentsLoop, List.map_nil, firstOccAux, List.append_nil]
    exact (List.take_of_length_le (by omega)).symm
  | cons hit rest ih =>
    intro acc hacc
    simp only [uniqueParentsLoop, List.map_cons, firstOccAux]
    by_cases hmem : hit.parent_id ∈ acc
    · rw [if_pos hmem, if_pos hmem]
      exact ih acc hacc
    · rw [if_neg hmem, if_neg hmem]
      by_cases hlen : (acc ++ [hit.parent_id]).length = k
      · rw [if_pos hlen]
        have hflat : acc ++ hit.parent_id :: firstOccAux (rest.map fun h => h.parent_id) (acc ++ [hit.parent_id]) = (acc ++ [hit.parent_id]) ++ firstOccAux (rest.map fun h => h.parent_id) (acc ++ [hit.parent_id]) := by
          simp
        rw [hflat, ← hlen, List.take_left]
      · rw [if_neg hlen]
        have hlen' : acc.length + 1 ≠ k := by simpa using hlen
        have hlt : (acc ++ [hit.parent_id]).length < k := by
          simp only [List.length_append, List.length_singleton]
          omega
        rw [ih (acc ++ [hit.parent_id]) hlt]
        congr 1
        simp

theorem retrieveParentIds_eq (hits : List Hit) (k : Nat) (hk : 1 ≤ k) : retrieveParentIds hits k = (specDistinctFirstOcc (hits.map fun h => h.parent_id)).take k := by
  simp only [retrieveParentIds, specDistinctFirstOcc]
  simpa using uniqueParentsLoop_eq k hits [] (by simpa using hk)

theorem processLoop_error_at (processBatch : List α → Option String) (documents : List α) (batch_size start_from : Nat) (e : String) : ∀ (b n i : Nat) (inserted : List (List α)), b < n → (∀ j, j < b → processBatch (batchSlice documents batch_size start_from (i + j)) = none) → processBatch (batchSlice documents batch_size start_from (i + b)) = some e → processLoop processBatch documents batch_size start_from n i inserted = .error (start_from + (i + b) * batch_size + batch_size, e) := by
  intro b
  induction b with
  | zero =>
    intro n i inserted hbn hok hfail
    obtain ⟨m, rfl⟩ : ∃ m, n = m + 1 := ⟨n - 1, by omega⟩
    simp only [Nat.add_zero] at hfail
    simp only [processLoop]
    rw [hfail]
    simp
  | succ b ih =>
    intro n i inserted hbn hok hfail
    obtain ⟨m, rfl⟩ : ∃ m, n = m + 1 := ⟨n - 1, by omega⟩
    simp only [processLoop]
    have h0 : processBatch (batchSlice documents batch_size start_from i) = none := by
      simpa using hok 0 (by omega)
    rw [h0]
    have hok' : ∀ j, j < b → processBatch (batchSlice documents batch_size start_from (i + 1 + j)) = none := by
      intro j hj
      have hj1 := hok (j + 1) (by omega)
      have harith : i + (j + 1) = i + 1 + j := by omega
      rwa [harith] at hj1
    have hfail' : processBatch (batchSlice documents batch_size start_from (i + 1 + b)) = some e := by
      have harith : i + (b + 1) = i + 1 + b := by omega
      rwa [harith] at hfail
    have hrec := ih m (i + 1) (inserted ++ [batchSlice documents batch_size start_from i]) (by omega) hok' hfail'
    have harith : i + (b + 1) = i + 1 + b := by omega
    rw [harith]
    exact hrec

theorem lt_num_batches (L bs b : Nat) (hbs : 0 < bs) (hb : b * bs < L) : b < L / bs + (if L % bs > 0 then 1 else 0) := by
  obtain ⟨q, r, hqr, hrlt, hq, hr⟩ : ∃ q r, L = bs * q + r ∧ r < bs ∧ q = L / bs ∧ r = L % bs :=
    ⟨L / bs, L % bs, (Nat.div_add_mod L bs).symm, Nat.mod_lt L hbs, rfl, rfl⟩
  rw [← hq, ← hr]
  by_cases hr0 : r > 0
  · rw [if_pos hr0]
    by_contra hcon
    push_neg at hcon
    have hmul : (q + 1) * bs ≤ b * bs := mul_le_mul_right' hcon bs
    have hexp : (q + 1) * bs = bs * q + bs := by ring
    omega
  · rw [if_neg hr0]
    have hr0' : r = 0 := by omega
    subst hr0'
    by_contra hcon
    push_neg at hcon
    have hmul : q * bs ≤ b * bs := mul_le_mul_right' hcon bs
    have hexp : q * bs = bs * q := by ring
    omega

theorem process_error_at (processBatch : List α → Option String) (documents : List α) (batch_size start_from b : Nat) (e : String) (hbs : 0 < batch_size) (hb : start_from + b * batch_size < documents.length) (hok : ∀ j, j < b → processBatch (batchSlice documents batch_size start_from j) = none) (hfail : processBatch (batchSlice documents batch_size start_from b) = some e) : process_and_insert_chunks processBatch documents batch_size start_from = .error (start_from + b * batch_size + batch_size, e) := by
  simp only [process_and_insert_chunks]
  have hlen : (documents.drop start_from).length = documents.length - start_from := by simp
  have hbnum : b < (documents.drop start_from).length / batch_size + (if (documents.drop start_from).length % batch_size > 0 then 1 else 0) := by
    apply lt_num_batches _ _ _ hbs
    rw [hlen]
    omega
  have hloop := processLoop_error_at processBatch documents batch_size start_from e b _ 0 [] hbnum (by intro j hj; simpa using hok j hj) (by simpa using hfail)
  simpa using hloop

theorem foldl_drop_collection (names : List String) : ∀ init : List String, names.foldl (fun s collection_name => drop_collection s collection_name) init = init.filter fun x => !names.contains x := by
  induction names with
  | nil =>
    intro init
    simp [List.filter_eq_self]
  | cons n ns ih =>
    intro init
    rw [List.foldl_cons, ih (drop_collection init n)]
    simp only [drop_collection, List.filter_filter]
    apply List.filter_congr
    intro x hx
    simp only [List.contains_cons, Bool.not_or]
    rw [Bool.and_comm]
    rfl

/-! Concrete fixtures used by witnesses, counterexamples and failing-input
evaluations. -/

/-- Dense provider returning one vector per input text. -/
def denseEfX : List String → Except String (List Vec) := fun texts =>
  .ok (texts.map fun _ => ([0] : Vec))

/-- Sparse provider returning one vector per input text. -/
def sparseEfX : List String → Except String (List Vec) := fun texts =>
  .ok (texts.map fun _ => ([1] : Vec))

/-- Dense provider whose single batched call raises. -/
def denseEfFail : List String → Except String (List Vec) := fun _ =>
  .error "dense boom"

/-- Tagger extracting nothing. -/
def nerEmpty : String → List (String × String) := fun _ => []

/-- Tagger extracting one `LAW` entity absent from the fixture corpus. -/
def nerLaw : String → List (String × String) := fun _ => [("LAW", "9999")]

/-- One fixture chunk of parent document `doc1`. -/
def chunkX : Chunk := { id := "doc1_0", text := "hola", parentMeta := some "doc1" }

/-- The record the embedded pipeline builds for `chunkX`. -/
def recX : ChunkRecord :=
  { id := "doc1_0", dense_vector := [0], sparse_vector := [1],
    parent_id := some "doc1", text := "hola", entities := [Entity.mk "LAW" "doc1"] }

/-- The record built for the second spec-modelled chunk of `docX`. -/
def recY : ChunkRecord :=
  { id := "doc1_1", dense_vector := [0], sparse_vector := [1],
    parent_id := some "doc1", text := "mundo", entities := [Entity.mk "LAW" "doc1"] }

/-- Fixture parent document with an underscore-free id. -/
def docX : Document := { id := "doc1", text := "cuerpo", number := 7, page := 3 }

/-- A hit of parent `"A"` with no persisted entities. -/
def hitA : Hit := { parent_id := "A", entities := [] }

/-- A hit of parent `"B"` with no persisted entities. -/
def hitB : Hit := { parent_id := "B", entities := [] }

/-- A hit whose persisted entities contain the query entity of
`nerLaw`. -/
def hitLaw : Hit := { parent_id := "B", entities := [Entity.mk "LAW" "9999"] }

/-- Fixture ingestion corpus of 45 documents, represented by their
indices. -/
def docs45 : List Nat := List.range 45

/-- Batch processor that raises exactly on the batch holding document
30 (the fourth batch for batch size 10). -/
def fail45 : List Nat → Option String := fun batch =>
  if batch.contains 30 then some "boom" else none

/-- Store for which the filtered search finds nothing while the
unfiltered search would find a hit. -/
def storeC1 : StoreQ :=
  { hybridFiltered := .ok [], hybridUnfiltered := .ok [hitA], getById := fun _ => none }

/-- Store whose entity filter is looser than intended: the filtered
search returns a hit carrying none of the query entities. -/
def storeC5 : StoreQ :=
  { hybridFiltered := .ok [hitA], hybridUnfiltered := .ok [], getById := fun _ => none }

/-- Store whose filtered search returns one matching and one
non-matching hit. -/
def storeC5W : StoreQ :=
  { hybridFiltered := .ok [hitLaw, hitA], hybridUnfiltered := .ok [], getById := fun _ => none }

/-- Store whose docs lookup misses parent `"B"`. -/
def storeC6 : StoreQ :=
  { hybridFiltered := .ok [], hybridUnfiltered := .ok [hitA, hitB],
    getById := fun i => if i = "A" then some docX else none }

/-- Store whose collections were dropped: every hybrid search raises. -/
def storeDropped : StoreQ :=
  { hybridFiltered := .error "collection not found",
    hybridUnfiltered := .error "collection not found", getById := fun _ => none }

/-! Claim theorems. -/

/-- C1, evaluation at the failing input: one entity is extracted from
the query, the entity-filtered hybrid search returns zero hits, and the
unfiltered search would return a non-empty hit list — yet
`find_relevant_chunks` returns the empty filtered hit list.  The
zero-hit fallback never fires after entity extraction, because the
condition tests the number of per-query hit lists of the one-query
`SearchResult` (always one), not the number of hits in it. -/
theorem c1_zero_hit_fallback_missing : find_relevant_chunks nerLaw storeC1 "consulta" = .ok [] ∧ storeC1.hybridUnfiltered = .ok [hitA] ∧ ([hitA] : List Hit) ≠ [] :=
  ⟨rfl, rfl, by decide⟩

/-- C2: every chunk record produced by the embedded
`_generate_chunk_records` contains the entity of type `LAW` whose value
is the chunk id's prefix before the first underscore (its parent
document id), injected synthetically when the tagger did not produce it;
and the injection is idempotent — applied to an entity list already
containing that `LAW` entity it returns the list unchanged, so it never
produces a duplicate `LAW` entry. -/
theorem c2_law_entity_invariant (denseEf sparseEf : List String → Except String (List Vec)) (ner : String → List (String × String)) (chunkSize : Nat) (chunks : List Chunk) (records : List ChunkRecord) (trace : List EfCall) (h : generate_chunk_records denseEf sparseEf ner chunkSize chunks = (Except.ok records, trace)) (r : ChunkRecord) (hr : r ∈ records) : Entity.mk "LAW" (pyStrSplitFirst r.id) ∈ r.entities ∧ ∀ es : List Entity, Entity.mk "LAW" (pyStrSplitFirst r.id) ∈ es → injectLaw (pyStrSplitFirst r.id) es = es := by
  obtain ⟨dv, sv, hdv, hsv, hbuild, htrace⟩ := generate_chunk_records_ok_elim denseEf sparseEf ner chunkSize chunks records trace h
  obtain ⟨chunk, hc, d, s, rfl⟩ := buildRecords_mem ner chunkSize dv sv chunks records hbuild r hr
  exact ⟨mkEntitiesList_law ner chunk, fun es hes => injectLaw_of_mem _ es hes⟩

/-- Witness for C2 at the fixture chunk. -/
theorem c2_law_entity_invariant_witness : Entity.mk "LAW" (pyStrSplitFirst recX.id) ∈ recX.entities ∧ injectLaw (pyStrSplitFirst recX.id) [Entity.mk "LAW" (pyStrSplitFirst recX.id)] = [Entity.mk "LAW" (pyStrSplitFirst recX.id)] := by
  have h := c2_law_entity_invariant denseEfX sparseEfX nerEmpty 10 [chunkX] [recX] [EfCall.dense ["hola"], EfCall.sparse ["hola"]] (by rfl) recX (by decide)
  exact ⟨h.1, h.2 [Entity.mk "LAW" (pyStrSplitFirst recX.id)] (List.mem_singleton.mpr rfl)⟩

/-- C3, counterexample at `n_docs = 0`: the break check `len == n_docs`
runs only after an append, so it never fires for `n_docs = 0` and every
distinct parent is collected — more than the claimed bound of `0`. -/
theorem c3_counterexample : retrieveParentIds [hitA] 0 = ["A"] ∧ ¬ (retrieveParentIds [hitA] 0).length ≤ 0 := by
  decide

/-- C3 (amended to `n_docs = k ≥ 1`): the dedup stage collects the
distinct parent ids in order of first appearance in the score-ordered
hit list, truncated to the first `k`; hence at most `k` are collected,
when fewer than `k` distinct parents appear all of them are returned in
order (no padding, no error), and the parent-document stage of
`get_context` yields at most `k` documents. -/
theorem c3_distinct_parents (hits : List Hit) (k : Nat) (hk : 1 ≤ k) : retrieveParentIds hits k = (specDistinctFirstOcc (hits.map fun h => h.parent_id)).take k ∧ (retrieveParentIds hits k).length ≤ k ∧ ((specDistinctFirstOcc (hits.map fun h => h.parent_id)).length ≤ k → retrieveParentIds hits k = specDistinctFirstOcc (hits.map fun h => h.parent_id)) ∧ ∀ store : StoreQ, (retrieve_parent_documents store hits k).length ≤ k := by
  have heq := retrieveParentIds_eq hits k hk
  refine ⟨heq, ?_, ?_, ?_⟩
  · rw [heq, List.length_take]
    exact Nat.min_le_left _ _
  · intro hle
    rw [heq]
    exact List.take_of_length_le hle
  · intro store
    simp only [retrieve_parent_documents, List.length_map]
    rw [heq, List.length_take]
    exact Nat.min_le_left _ _

/-- Witness for C3's amended statement at one hit and `k = 1`. -/
theorem c3_distinct_parents_witness : retrieveParentIds [hitA] 1 = (specDistinctFirstOcc ([hitA].map fun h => h.parent_id)).take 1 ∧ (retrieveParentIds [hitA] 1).length ≤ 1 := by
  have h := c3_distinct_parents [hitA] 1 (by decide)
  exact ⟨h.1, h.2.1⟩

/-- C4: when every batch before `b` succeeds and batch `b` (first
document index `start_from + b * batch_size`) raises, the embedded
`_process_and_insert_chunks` stops immediately — no retry, no skipping —
logs `start_idx + batch_size` as the next resume offset and re-raises
the original error. -/
theorem c4_batch_failure_resume (processBatch : List Nat → Option String) (documents : List Nat) (batch_size start_from b : Nat) (e : String) (hbs : 0 < batch_size) (hb : start_from + b * batch_size < documents.length) (hok : ∀ j, j < b → processBatch (batchSlice documents batch_size start_from j) = none) (hfail : processBatch (batchSlice documents batch_size start_from b) = some e) : process_and_insert_chunks processBatch documents batch_size start_from = .error (start_from + b * batch_size + batch_size, e) :=
  process_error_at processBatch documents batch_size start_from b e hbs hb hok hfail

/-- Witness for C4, the spec's own scenario: 45 documents, batch size
10, failure on the fourth batch (start index 30) logs resume offset 40,
and re-invocation from 40 processes exactly the remaining 5 documents. -/
theorem c4_batch_failure_resume_witness : process_and_insert_chunks fail45 docs45 10 0 = .error (40, "boom") ∧ process_and_insert_chunks fail45 docs45 10 40 = .ok [[40, 41, 42, 43, 44]] := by
  constructor
  · exact c4_batch_failure_resume fail45 docs45 10 0 3 "boom" (by decide) (by decide) (by decide) (by decide)
  · rfl

/-- C5, counterexample: the store's entity-filtered search returns one
hit whose persisted entities contain none of the query entities; the
client re-check then removes every hit, and the guarded assignment
(`if hits:`) passes the original store hits on unchanged — a hit failing
the membership re-check is passed on. -/
theorem c5_counterexample : find_relevant_chunks nerLaw storeC5 "consulta" = .ok [hitA] ∧ hitMatches (queryEntityList (nerLaw "consulta")) hitA = false :=
  ⟨rfl, rfl⟩

/-- C5 (amended): after the entity-filtered search, whenever at least
one returned hit passes the client-side membership re-check, exactly the
passing hits are passed on — every one of them contains a query
entity —; when none passes, the store's filtered hits are passed on
unchanged and the store-side filter is the sole guarantee. -/
theorem c5_client_refilter (ner : String → List (String × String)) (store : StoreQ) (query : String) (hitsF : List Hit) (hne : (ner query).isEmpty = false) (hf : store.hybridFiltered = .ok hitsF) : ((hitsF.filter fun hit => hitMatches (queryEntityList (ner query)) hit).isEmpty = false → find_relevant_chunks ner store query = .ok (hitsF.filter fun hit => hitMatches (queryEntityList (ner query)) hit) ∧ ∀ hit ∈ hitsF.filter fun hit => hitMatches (queryEntityList (ner query)) hit, hitMatches (queryEntityList (ner query)) hit = true) ∧ ((hitsF.filter fun hit => hitMatches (queryEntityList (ner query)) hit).isEmpty = true → find_relevant_chunks ner store query = .ok hitsF) := by
  constructor
  · intro hsome
    constructor
    · simp [find_relevant_chunks, hne, hf, hsome]
    · intro hit hmem
      exact List.of_mem_filter hmem
  · intro hnone
    simp [find_relevant_chunks, hne, hf, hnone]

/-- Witness for C5's amended statement: one of two filtered hits passes
the re-check and only it is passed on. -/
theorem c5_client_refilter_witness : find_relevant_chunks nerLaw storeC5W "consulta" = .ok ([hitLaw, hitA].filter fun hit => hitMatches (queryEntityList (nerLaw "consulta")) hit) ∧ hitMatches (queryEntityList (nerLaw "consulta")) hitLaw = true := by
  have h := (c5_client_refilter nerLaw storeC5W "consulta" [hitLaw, hitA] (by decide) rfl).1 (by decide)
  exact ⟨h.1, h.2 hitLaw (by decide)⟩

/-- C6, evaluation at the failing input: parent `"B"` misses in the
docs collection, `_get_document_by_id` yields `none`, and context
assembly then raises (`doc.metadata` on `None` is an `AttributeError`)
instead of skipping the missing document and returning a shorter
context. -/
theorem c6_lookup_miss_not_skipped : get_document_by_id storeC6 "B" = none ∧ get_context nerEmpty storeC6 "consulta" 2 = .error "AttributeError" ∧ isOkResult (get_context nerEmpty storeC6 "consulta" 2) = false :=
  ⟨rfl, rfl, rfl⟩

/-- C7, counterexample: with the collections dropped the hybrid search
raises, and `get_context` propagates the error instead of returning an
empty context string. -/
theorem c7_counterexample : get_context nerEmpty storeDropped "consulta" 2 = .error "collection not found" ∧ isOkResult (get_context nerEmpty storeDropped "consulta" 2) = false :=
  ⟨rfl, rfl⟩

/-- C7 (amended): a fatal store error during `get_context` propagates to
the caller as an exception — `get_context` installs no handler, on
either the no-entity path or the entity path —, and ingestion failures
propagate as well, reported with the next resume offset. -/
theorem c7_error_propagation (ner : String → List (String × String)) (store : StoreQ) (query : String) (n_docs : Nat) (e : String) : ((ner query).isEmpty = true → store.hybridUnfiltered = .error e → get_context ner store query n_docs = .error e) ∧ ((ner query).isEmpty = false → store.hybridFiltered = .error e → get_context ner store query n_docs = .error e) ∧ (∀ processBatch : List Nat → Option String, ∀ documents : List Nat, ∀ batch_size start_from b : Nat, 0 < batch_size → start_from + b * batch_size < documents.length → (∀ j, j < b → processBatch (batchSlice documents batch_size start_from j) = none) → processBatch (batchSlice documents batch_size start_from b) = some e → process_and_insert_chunks processBatch documents batch_size start_from = .error (start_from + b * batch_size + batch_size, e)) := by
  refine ⟨?_, ?_, ?_⟩
  · intro hner hstore
    simp [get_context, find_relevant_chunks, hner, hstore]
  · intro hner hstore
    simp [get_context, find_relevant_chunks, hner, hstore]
  · intro pb documents bs sf b hbs hb hok hfail
    exact process_error_at pb documents bs sf b e hbs hb hok hfail

/-- Witness for C7's amended statement: the dropped-store query error
propagates, and an ingestion failure on the third batch from offset 5
propagates with resume offset 35. -/
theorem c7_error_propagation_witness : get_context nerEmpty storeDropped "consulta" 3 = .error "collection not found" ∧ process_and_insert_chunks fail45 docs45 10 5 = .error (35, "boom") := by
  constructor
  · exact (c7_error_propagation nerEmpty storeDropped "consulta" 3 "collection not found").1 (by decide) rfl
  · exact (c7_error_propagation nerEmpty storeDropped "consulta" 3 "boom").2.2 fail45 docs45 10 5 2 (by decide) (by decide) (by decide) (by decide)

/-- C8: the embedded `_generate_chunk_records` calls the dense provider
exactly once and the sparse provider exactly once, both on the batched
list of all chunk texts (the recorded call trace is exactly those two
calls); on success the record list matches the chunk list in length and
order, and each record's dense and sparse vector fields hold the
provider outputs at that record's index; a failure of either provider
call makes the whole function propagate the error with no records. -/
theorem c8_batched_embedding_calls (denseEf sparseEf : List String → Except String (List Vec)) (ner : String → List (String × String)) (chunkSize : Nat) (chunks : List Chunk) : (∀ e, denseEf (chunks.map fun c => c.text) = .error e → generate_chunk_records denseEf sparseEf ner chunkSize chunks = (.error e, [EfCall.dense (chunks.map fun c => c.text)])) ∧ (∀ dv e, denseEf (chunks.map fun c => c.text) = .ok dv → sparseEf (chunks.map fun c => c.text) = .error e → generate_chunk_records denseEf sparseEf ner chunkSize chunks = (.error e, [EfCall.dense (chunks.map fun c => c.text), EfCall.sparse (chunks.map fun c => c.text)])) ∧ (∀ records trace, generate_chunk_records denseEf sparseEf ner chunkSize chunks = (.ok records, trace) → trace = [EfCall.dense (chunks.map fun c => c.text), EfCall.sparse (chunks.map fun c => c.text)] ∧ records.length = chunks.length ∧ ∀ j : Nat, ∀ hj : j < records.length, ∀ hj' : j < chunks.length, ∃ dv sv d s, denseEf (chunks.map fun c => c.text) = .ok dv ∧ sparseEf (chunks.map fun c => c.text) = .ok sv ∧ dv[j]? = some d ∧ sv[j]? = some s ∧ records.get ⟨j, hj⟩ = mkRecord ner chunkSize (chunks.get ⟨j, hj'⟩) d s) := by
  refine ⟨?_, ?_, ?_⟩
  · intro e he
    simp only [generate_chunk_records]
    rw [he]
  · intro dv e hdv he
    simp only [generate_chunk_records]
    rw [hdv, he]
  · intro records trace h
    obtain ⟨dv, sv, hdv, hsv, hbuild, htrace⟩ := generate_chunk_records_ok_elim denseEf sparseEf ner chunkSize chunks records trace h
    obtain ⟨hlen, hpt⟩ := buildRecords_length_get ner chunkSize dv sv chunks 0 records hbuild
    refine ⟨htrace, hlen, ?_⟩
    intro j hj hj'
    obtain ⟨d, s, hd, hs, heq⟩ := hpt j hj hj'
    exact ⟨dv, sv, d, s, hdv, hsv, by simpa using hd, by simpa using hs, heq⟩

/-- Witness for C8: the success trace and lengths at one chunk, plus the
propagated dense failure. -/
theorem c8_batched_embedding_calls_witness : generate_chunk_records denseEfX sparseEfX nerEmpty 10 [chunkX] = (.ok [recX], [EfCall.dense ["hola"], EfCall.sparse ["hola"]]) ∧ [recX].length = [chunkX].length ∧ generate_chunk_records denseEfFail sparseEfX nerEmpty 10 [chunkX] = (.error "dense boom", [EfCall.dense ["hola"]]) := by
  refine ⟨by rfl, ?_, ?_⟩
  · have h := (c8_batched_embedding_calls denseEfX sparseEfX nerEmpty 10 [chunkX]).2.2 [recX] [EfCall.dense ["hola"], EfCall.sparse ["hola"]] (by rfl)
    exact h.2.1
  · exact (c8_batched_embedding_calls denseEfFail sparseEfX nerEmpty 10 [chunkX]).1 "dense boom" (by rfl)

/-- C9: for every record built from the spec-modelled chunks of a
document whose id is underscore-free, the prefix of the record id before
the first underscore equals the record's `parent_id` field, so the
parent document id is always recoverable from the chunk id. -/
theorem c9_parent_id_recoverable (denseEf sparseEf : List String → Except String (List Vec)) (ner : String → List (String × String)) (chunkSize : Nat) (doc : Document) (pieces : List String) (hid : doc.id.data.all (fun c => c != '_') = true) (records : List ChunkRecord) (trace : List EfCall) (h : generate_chunk_records denseEf sparseEf ner chunkSize (chunk_documents doc pieces) = (Except.ok records, trace)) (r : ChunkRecord) (hr : r ∈ records) : r.parent_id = some (pyStrSplitFirst r.id) := by
  obtain ⟨dv, sv, hdv, hsv, hbuild, htrace⟩ := generate_chunk_records_ok_elim denseEf sparseEf ner chunkSize (chunk_documents doc pieces) records trace h
  obtain ⟨chunk, hc, d, s, rfl⟩ := buildRecords_mem ner chunkSize dv sv (chunk_documents doc pieces) records hbuild r hr
  simp only [chunk_documents, List.mem_map] at hc
  obtain ⟨p, hp, rfl⟩ := hc
  show some doc.id = some (pyStrSplitFirst (doc.id ++ "_" ++ toString p.1))
  rw [pyStrSplitFirst_append _ _ hid]

/-- Witness for C9 at the fixture document and its second chunk
record. -/
theorem c9_parent_id_recoverable_witness : recY.parent_id = some (pyStrSplitFirst recY.id) := by
  exact c9_parent_id_recoverable denseEfX sparseEfX nerEmpty 10 docX ["hola", "mundo"] (by decide) [recX, recY] [EfCall.dense ["hola", "mundo"], EfCall.sparse ["hola", "mundo"]] (by rfl) recY (by decide)

/-- C10: deleting `"all"` drops every collection in the store's
`list_collections()` snapshot, owned by this system or not; deleting any
other name drops exactly that collection and leaves every other
collection in place. -/
theorem c10_delete_documents_scope (store : List String) (c : String) : delete_documents store "all" = [] ∧ (c ≠ "all" → delete_documents store c = store.filter fun x => x != c) ∧ (c ≠ "all" → c ∉ delete_documents store c) ∧ (c ≠ "all" → ∀ x ∈ store, x ≠ c → x ∈ delete_documents store c) := by
  refine ⟨?_, ?_, ?_, ?_⟩
  · simp only [delete_documents]
    rw [if_pos (by simp), foldl_drop_collection store store, List.filter_eq_nil_iff]
    intro x hx
    simp [hx]
  · intro hc
    simp only [delete_documents, drop_collection]
    rw [if_neg (by simpa using hc)]
  · intro hc
    simp only [delete_documents, drop_collection]
    rw [if_neg (by simpa using hc)]
    intro hmem
    have h2 := (List.mem_filter.mp hmem).2
    simp at h2
  · intro hc x hxs hxc
    simp only [delete_documents, drop_collection]
    rw [if_neg (by simpa using hc)]
    exact List.mem_filter.mpr ⟨hxs, by simpa using hxc⟩

/-- Witness for C10: a store holding an unowned collection `"otra"`
besides `docs` and `chunks`. -/
theorem c10_delete_documents_scope_witness : delete_documents ["docs", "chunks", "otra"] "all" = [] ∧ delete_documents ["docs", "chunks", "otra"] "docs" = ["chunks", "otra"] := by
  have h := c10_delete_documents_scope ["docs", "chunks", "otra"] "docs"
  refine ⟨h.1, ?_⟩
  rw [h.2.1 (by decide)]
  decide

end Alba
